import Mathlib

/-!
omni-infra-provider-aws: placement, image lookup and the provisioning steps.

A shallow embedding of `internal/pkg/provider` (`data.go`, `ami.go`,
`provision.go`) and the properties proved about it.

Conventions of the embedding:

* a Go `string` is its byte sequence (`GoString`); `go "text"` is the byte
  sequence of a literal, `==` is equality of byte sequences and string
  concatenation is list append;
* machine integers are `Nat`/`Int` with explicit wrap-around (`wrapInt`);
  Go's `int` is taken to be 64 bits wide (`intBits`);
* a run-time panic (index out of range, nil dereference) is an explicit result;
* calls to collaborators outside the package (HTTP client, EC2 client, logger,
  control-plane callback) are answered by a `World` of response functions and
  recorded, in order, in a list of `Call`s.
-/

namespace provider

/-! ## Go strings -/

/-- A Go string: an immutable sequence of bytes. -/
abbrev GoString := List UInt8

/-- The Go string written as the literal `s` (its UTF-8 bytes). -/
def go (s : String) : GoString := s.toUTF8.data.toList

/-- Go's `strings.HasPrefix(s, prefix)`:
`len(s) >= len(prefix) && s[:len(prefix)] == prefix`. -/
def HasPrefix (s pre : GoString) : Bool :=
  decide (s.length ≥ pre.length) && decide (s.take pre.length = pre)

/-- The verb `%d` of `fmt.Sprintf` for a non-negative integer: its decimal digits. -/
def fmtD (n : Nat) : GoString := go (toString n)

/-! ## encoding/base64 (Go standard library), `StdEncoding` -/

/-- The alphabet `encodeStd` of encoding/base64. -/
def encodeStd : GoString :=
  go "ABCDEFGHIJKLMNOPQRSTUVWXYZabcdefghijklmnopqrstuvwxyz0123456789+/"

/-- The character of the standard alphabet for the low six bits of `v`. -/
def encodeStdAt (v : Nat) : UInt8 := encodeStd.getD (v % 64) 0

/-- The method `base64.StdEncoding.EncodeToString`: three bytes become four
characters, and a last group of one or two bytes is padded with `=` (61). -/
def EncodeToString : GoString → GoString
  | a :: b :: c :: src =>
    let v := a.toNat * 65536 + b.toNat * 256 + c.toNat
    encodeStdAt (v / 262144) :: encodeStdAt (v / 4096) :: encodeStdAt (v / 64)
      :: encodeStdAt v :: EncodeToString src
  | [a, b] =>
    let v := a.toNat * 65536 + b.toNat * 256
    [encodeStdAt (v / 262144), encodeStdAt (v / 4096), encodeStdAt (v / 64), 61]
  | [a] =>
    let v := a.toNat * 65536
    [encodeStdAt (v / 262144), encodeStdAt (v / 4096), 61, 61]
  | [] => []

/-! ## Machine integers -/

/-- Two's-complement reading of `x` at width `w`: the value a Go conversion to a
signed integer type of `w` bits yields. -/
def wrapInt (w : Nat) (x : Int) : Int :=
  (x + 2 ^ (w - 1)) % 2 ^ w - 2 ^ (w - 1)

/-- Width of Go's `int` on the 64-bit platforms the provider is built for. -/
def intBits : Nat := 64

/-- Indexing a slice with a Go `int`: `none` is the index-out-of-range panic. -/
def index {α : Type} (xs : List α) (i : Int) : Option α :=
  if 0 ≤ i ∧ i < xs.length then xs[i.toNat]? else none

/-! ## hash/fnv (Go standard library), 32-bit FNV-1a -/

/-- The constant `offset32` of hash/fnv. -/
def offset32 : Nat := 2166136261

/-- The constant `prime32` of hash/fnv. -/
def prime32 : Nat := 16777619

/-- The method `(*sum32a).Write`: for each byte `c` of the data,
`hash ^= sum32a(c); hash *= prime32` on a `uint32`. -/
def sum32a.Write : Nat → GoString → Nat
  | hash, [] => hash
  | hash, c :: data =>
    let hash1 := hash ^^^ c.toNat
    let hash2 := (hash1 * prime32) % 2 ^ 32
    sum32a.Write hash2 data

/-- The value of `h := fnv.New32a(); h.Write(data); h.Sum32()`. -/
def Sum32 (data : GoString) : Nat := sum32a.Write offset32 data

/-- The 32-bit FNV-1a hash as the placement property words it: offset basis
2166136261, then per byte `h := ((h xor b) * 16777619) mod 2^32`. -/
def fnv1a32Spec (bytes : List UInt8) : Nat :=
  bytes.foldl (fun h b => ((h ^^^ b.toNat) * 16777619) % 2 ^ 32) 2166136261

/-! ## data.go -/

/-- The provider custom machine config (`Data` of data.go). -/
structure Data where
  InstanceType : GoString := []
  SubnetID : GoString := []
  SubnetIDs : List GoString := []
  SecurityGroupIDs : List GoString := []
  VolumeSize : Int := 0
  Arch : GoString := []
  deriving DecidableEq

/-- The method `(*Data).GetSubnetID` of data.go. `none` is a run-time panic of
the slice index. -/
def Data.GetSubnetID (d : Data) (requestID : GoString) : Option GoString :=
  if d.SubnetIDs.length > 0 then
    let h := Sum32 requestID
    let idx : Int := Int.tmod (wrapInt intBits (h : Int)) (d.SubnetIDs.length : Int)
    index d.SubnetIDs idx
  else
    some d.SubnetID

/-! ## data_test.go: the distribution experiment -/

/-- The list `subnetIDs` of `TestGetSubnetID_Distribution`:
`subnetIDs[i] = fmt.Sprintf("subnet-%d", i)` for `i < numSubnets`. -/
def testSubnetIDs (numSubnets : Nat) : List GoString :=
  (List.range numSubnets).map (fun i => go "subnet-" ++ fmtD i)

/-- The test's `diff`: `diff := count - expectedPerSubnet; if diff < 0 { diff = -diff }`. -/
def testDiff (count expectedPerSubnet : Int) : Int :=
  let diff := count - expectedPerSubnet
  if diff < 0 then -diff else diff

/-- The request id `fmt.Sprintf("request-%d", i)` of the test. -/
def testRequestID (i : Nat) : GoString := go "request-" ++ fmtD i

/-- The entry `distribution[subnet]` after the counting loop of
`TestGetSubnetID_Distribution`: how many of the request ids
`request-0 .. request-(numRequests-1)` were given `subnet`. -/
def distribution (numSubnets numRequests : Nat) (subnet : GoString) : Nat :=
  ((List.range numRequests).filter (fun i =>
    decide (({ SubnetIDs := testSubnetIDs numSubnets } : Data).GetSubnetID (testRequestID i)
      = some subnet))).length

/-! ## Errors, results and the record of outside calls -/

/-- A Go `error` value of the package. -/
inductive Error where
  /-- An error made here with `fmt.Errorf`, with its message. -/
  | errorf (msg : GoString)
  /-- An error returned by a collaborator and handed on unchanged. -/
  | external (e : GoString)
  /-- The value `provision.NewRetryInterval(d)`, `d` in nanoseconds. -/
  | retryInterval (d : Nat)
  deriving DecidableEq

/-- What a step function does when it ends: `return nil`, `return err`, or a
run-time panic. -/
inductive Outcome where
  | nil
  | err (e : Error)
  | panic
  deriving DecidableEq

/-- The constant `time.Second`, in nanoseconds. -/
def Second : Nat := 1000000000

/-- The type `CloudImage` of ami.go. -/
structure CloudImage where
  ID : GoString
  Region : GoString
  Arch : GoString
  deriving DecidableEq

/-- A `types.Tag` of the EC2 API. -/
structure Tag where
  Key : Option GoString
  Value : Option GoString
  deriving DecidableEq

/-- A `types.TagSpecification` of the EC2 API. -/
structure TagSpecification where
  ResourceType : GoString
  Tags : List Tag
  deriving DecidableEq

/-- A `types.EbsBlockDevice` of the EC2 API; `VolumeSize` is a `*int32`. -/
structure EbsBlockDevice where
  VolumeSize : Option Int
  deriving DecidableEq

/-- A `types.BlockDeviceMapping` of the EC2 API. -/
structure BlockDeviceMapping where
  DeviceName : Option GoString
  Ebs : Option EbsBlockDevice
  deriving DecidableEq

/-- The fields of `ec2.RunInstancesInput` the provider sets; a field left
unset is `none` (pointer) or `[]` (nil slice). -/
structure RunInstancesInput where
  ImageId : Option GoString
  InstanceType : GoString
  MinCount : Option Int
  MaxCount : Option Int
  UserData : Option GoString
  TagSpecifications : List TagSpecification
  SubnetId : Option GoString := none
  SecurityGroupIds : List GoString := []
  BlockDeviceMappings : List BlockDeviceMapping := []
  deriving DecidableEq

/-- A `types.InstanceState`; `Name` is a `types.InstanceStateName`, a string type. -/
structure InstanceState where
  Name : GoString
  deriving DecidableEq

/-- The fields of `types.Instance` the provider reads; both are pointers. -/
structure Instance where
  InstanceId : Option GoString
  State : Option InstanceState
  deriving DecidableEq

/-- A `types.Reservation`. -/
structure Reservation where
  Instances : List Instance
  deriving DecidableEq

/-- The `*http.Response` fields `LookupAMI` reads. -/
structure Response where
  StatusCode : Int
  Status : GoString
  Body : GoString
  deriving DecidableEq

/-- A call that leaves the package, in the order the code makes it. -/
inductive Call where
  /-- The request `http.DefaultClient.Do(req)`, a GET of `url`. -/
  | httpGet (url : GoString)
  | runInstances (input : RunInstancesInput)
  | describeInstances (instanceIds : List GoString)
  | terminateInstances (instanceIds : List GoString)
  | setMachineInfraID (id : GoString)
  /-- A logger call: level, message and the `zap.String` fields. -/
  | log (level : GoString) (msg : GoString) (fields : List (GoString × GoString))
  deriving DecidableEq

/-- The answers of the collaborators outside the package. Each is a function
of the request; an `error` answer carries the collaborator's error. -/
structure World where
  /-- The call `http.NewRequestWithContext(ctx, http.MethodGet, url, nil)`. -/
  NewRequestWithContext : GoString → Except GoString Unit
  /-- The call `http.DefaultClient.Do(req)` for the request to `url`. -/
  Do : GoString → Except GoString Response
  /-- The call `json.NewDecoder(resp.Body).Decode(&images)`. -/
  Decode : GoString → Except GoString (List CloudImage)
  /-- The call `ec2Client.RunInstances`, answering with `out.Instances`. -/
  RunInstances : RunInstancesInput → Except GoString (List Instance)
  /-- The call `ec2Client.DescribeInstances`, answering with `out.Reservations`. -/
  DescribeInstances : List GoString → Except GoString (List Reservation)
  /-- The call `ec2Client.TerminateInstances`. -/
  TerminateInstances : List GoString → Except GoString Unit

/-! ## ami.go -/

/-- The leading lines of `LookupAMI`:
`if !strings.HasPrefix(version, "v") { version = "v" + version }`. -/
def normalizeVersion (version : GoString) : GoString :=
  if !HasPrefix version (go "v") then go "v" ++ version else version

/-- The URL `LookupAMI` builds from the (already prefixed) version with `fmt.Sprintf`. -/
def manifestURL (version : GoString) : GoString :=
  go "https://github.com/siderolabs/talos/releases/download/" ++ version
    ++ go "/cloud-images.json"

/-- The closing loop of `LookupAMI` over the decoded images, and the error after it. -/
def scanImages (region arch : GoString) : List CloudImage → Except Error GoString
  | [] => .error (.errorf (go "AMI not found for region " ++ region ++ go " and arch " ++ arch))
  | img :: images =>
    if img.Region = region ∧ img.Arch = arch then .ok img.ID
    else scanImages region arch images

/-- The function `LookupAMI` of ami.go: its `(string, error)` result
(`error e` stands for `("", e)`) and the calls it made. -/
def LookupAMI (w : World) (region arch version : GoString) :
    Except Error GoString × List Call :=
  let version := normalizeVersion version
  let url := manifestURL version
  match w.NewRequestWithContext url with
  | .error e => (.error (.external e), [])
  | .ok _ =>
    match w.Do url with
    | .error e => (.error (.external e), [.httpGet url])
    | .ok resp =>
      if resp.StatusCode ≠ 200 then
        (.error (.errorf (go "failed to fetch cloud-images.json: " ++ resp.Status)),
          [.httpGet url])
      else
        match w.Decode resp.Body with
        | .error e => (.error (.external e), [.httpGet url])
        | .ok images => (scanImages region arch images, [.httpGet url])

/-! ## provision.go -/

/-- Modelled from the spec: the persisted machine spec behind
`pctx.State.TypedSpec().Value` (package `resources`, not among the sources):
"resolved image id, resolved region, and instance id", with the field names
provision.go uses. -/
structure MachineSpec where
  AmiId : GoString := []
  Region : GoString := []
  InstanceId : GoString := []
  deriving DecidableEq

/-- The type `Provisioner` of provision.go; its `ec2Client` is answered by the `World`. -/
structure Provisioner where
  region : GoString
  deriving DecidableEq

/-- What a step reads from `provision.Context[*resources.Machine]`. -/
structure Context where
  /-- The spec `pctx.State.TypedSpec().Value` when the step starts. -/
  State : MachineSpec
  /-- What `pctx.UnmarshalProviderData(&data)` leaves in `data`, or its error. -/
  ProviderData : Except GoString Data
  /-- The value of `pctx.GetRequestID()`. -/
  RequestID : GoString
  /-- The value of `pctx.GetTalosVersion()`. -/
  TalosVersion : GoString
  /-- The value of `pctx.ConnectionParams.JoinConfig`. -/
  JoinConfig : GoString

/-- How a step ends: what it returns, the spec it leaves and the calls it made. -/
structure StepResult where
  outcome : Outcome
  State : MachineSpec
  calls : List Call
  deriving DecidableEq

/-- The step "lookupAMI" of `ProvisionSteps`. -/
def lookupAMI (w : World) (p : Provisioner) (pctx : Context) : StepResult :=
  match pctx.ProviderData with
  | .error e => ⟨.err (.external e), pctx.State, []⟩
  | .ok data =>
    let arch := if data.Arch = go "" then go "amd64" else data.Arch
    let version := pctx.TalosVersion
    if version = go "" then
      ⟨.err (.errorf (go "talos version is not set in machine request")), pctx.State, []⟩
    else
      match LookupAMI w p.region arch version with
      | (.error e, calls) => ⟨.err e, pctx.State, calls⟩
      | (.ok amiID, calls) =>
        ⟨.nil, { pctx.State with AmiId := amiID, Region := p.region },
          calls ++ [.log (go "info") (go "looked up AMI")
            [(go "ami", amiID), (go "version", version)]]⟩

/-- The `ec2.RunInstancesInput` the step "runInstance" builds, after its three
optional assignments. -/
def buildRunInstancesInput (data : Data) (pctx : Context)
    (subnetID : GoString) : RunInstancesInput :=
  let input : RunInstancesInput :=
    { ImageId := some pctx.State.AmiId
      InstanceType := data.InstanceType
      MinCount := some 1
      MaxCount := some 1
      UserData := some (EncodeToString pctx.JoinConfig)
      TagSpecifications :=
        [{ ResourceType := go "instance"
           Tags :=
            [{ Key := some (go "omni-request-id"), Value := some pctx.RequestID },
             { Key := some (go "Name"), Value := some (go "omni-" ++ pctx.RequestID) }] }] }
  let input := if subnetID ≠ go "" then { input with SubnetId := some subnetID } else input
  let input :=
    if data.SecurityGroupIDs.length > 0 then
      { input with SecurityGroupIds := data.SecurityGroupIDs }
    else input
  if data.VolumeSize > 0 then
    { input with
      BlockDeviceMappings :=
        [{ DeviceName := some (go "/dev/xvda")
           Ebs := some { VolumeSize := some (wrapInt 32 data.VolumeSize) } }] }
  else input

/-- The step "runInstance" of `ProvisionSteps`. -/
def runInstance (w : World) (pctx : Context) : StepResult :=
  match pctx.ProviderData with
  | .error e => ⟨.err (.external e), pctx.State, []⟩
  | .ok data =>
    let requestID := pctx.RequestID
    match data.GetSubnetID requestID with
    | none => ⟨.panic, pctx.State, []⟩
    | some subnetID =>
      if subnetID ≠ go "" ∧ data.SecurityGroupIDs.length = 0 then
        ⟨.err (.errorf (go
          "security_group_ids must be specified when subnet_id or subnet_ids is provided")),
          pctx.State, []⟩
      else
        let input := buildRunInstancesInput data pctx subnetID
        let logged : List Call :=
          if subnetID ≠ go "" then
            [.log (go "info") (go "selected subnet") [(go "subnet-id", subnetID)]]
          else []
        match w.RunInstances input with
        | .error e => ⟨.err (.external e), pctx.State, logged ++ [.runInstances input]⟩
        | .ok [] =>
          ⟨.err (.errorf (go "no instances created")), pctx.State,
            logged ++ [.runInstances input]⟩
        | .ok (first :: _) =>
          match first.InstanceId with
          | none => ⟨.panic, pctx.State, logged ++ [.runInstances input]⟩
          | some instanceID =>
            ⟨.nil, { pctx.State with InstanceId := instanceID },
              logged ++ [.runInstances input, .setMachineInfraID instanceID,
                .log (go "info") (go "instance created") [(go "instance-id", instanceID)]]⟩

/-- The step "waitRunning" of `ProvisionSteps`. -/
def waitRunning (w : World) (pctx : Context) : StepResult :=
  let spec := pctx.State
  let called : List Call := [.describeInstances [spec.InstanceId]]
  let notFound : StepResult :=
    ⟨.err (.errorf (go "instance " ++ spec.InstanceId ++ go " not found")), pctx.State, called⟩
  match w.DescribeInstances [spec.InstanceId] with
  | .error e => ⟨.err (.external e), pctx.State, called⟩
  | .ok [] => notFound
  | .ok (reservation :: _) =>
    match reservation.Instances with
    | [] => notFound
    | inst :: _ =>
      match inst.State with
      | none => ⟨.panic, pctx.State, called⟩
      | some state =>
        if state.Name = go "running" then
          ⟨.nil, pctx.State, called⟩
        else if state.Name = go "terminated" ∨ state.Name = go "shutting-down" then
          ⟨.err (.errorf (go "instance " ++ spec.InstanceId ++ go " is in state "
            ++ state.Name)), pctx.State, called⟩
        else
          ⟨.err (.retryInterval (Second * 10)), pctx.State, called⟩

/-- The method `(*Provisioner).Deprovision`: what it returns and the calls it made. -/
def Deprovision (w : World) (machine : MachineSpec) : Outcome × List Call :=
  let instanceID := machine.InstanceId
  if instanceID = go "" then
    (.nil, [.log (go "warn") (go "instance id is empty, skipping termination") []])
  else
    match w.TerminateInstances [instanceID] with
    | .error e => (.err (.external e), [.terminateInstances [instanceID]])
    | .ok _ =>
      (.nil, [.terminateInstances [instanceID],
        .log (go "info") (go "instance termination triggered")
          [(go "instance-id", instanceID)]])

/-! ## Concrete collaborators for the examples -/

/-- The manifest of the image resolution example. -/
def exampleManifest : List CloudImage :=
  [{ ID := go "ami-1", Region := go "us-east-1", Arch := go "amd64" }]

/-- A world in which every call succeeds: the manifest is `exampleManifest`,
one instance `i-1` is created, it is reported in state `state`, and a
terminate call is acknowledged. -/
def exampleWorld (state : GoString) : World where
  NewRequestWithContext := fun _ => .ok ()
  Do := fun _ => .ok { StatusCode := 200, Status := go "200 OK", Body := go "" }
  Decode := fun _ => .ok exampleManifest
  RunInstances := fun _ => .ok [{ InstanceId := some (go "i-1"), State := none }]
  DescribeInstances := fun _ =>
    .ok [{ Instances := [{ InstanceId := some (go "i-1"), State := some { Name := state } }] }]
  TerminateInstances := fun _ => .ok ()

/-- A world in which the EC2 terminate call fails with `e` and every other
call behaves as in `exampleWorld`. -/
def failingTerminateWorld (e : GoString) : World :=
  { exampleWorld (go "running") with TerminateInstances := fun _ => .error e }

/-- A step context with the given spec, parsed provider data, request id and
Talos version, and a small join configuration. -/
def exampleContext (spec : MachineSpec) (data : Data) (requestID version : GoString) :
    Context where
  State := spec
  ProviderData := .ok data
  RequestID := requestID
  TalosVersion := version
  JoinConfig := go "version: v1alpha1"

/-- Whether a recorded call is a create-instance (`RunInstances`) call. -/
def Call.isRunInstances : Call → Bool
  | .runInstances _ => true
  | _ => false

/-- Whether a recorded call is a terminate (`TerminateInstances`) call. -/
def Call.isTerminate : Call → Bool
  | .terminateInstances _ => true
  | _ => false

/-- Whether a recorded call is a manifest fetch. -/
def Call.isHttpGet : Call → Bool
  | .httpGet _ => true
  | _ => false

end provider

namespace provider

/-! ## Auxiliary lemmas: Go strings, FNV-1a and the slice index -/

theorem go_empty : go "" = [] := by decide

theorem go_v : go "v" = [118] := by decide

theorem sum32a_Write_eq_foldl (data : GoString) (hash : Nat) :
    sum32a.Write hash data
      = data.foldl (fun h b => ((h ^^^ b.toNat) * 16777619) % 2 ^ 32) hash := by
  induction data generalizing hash with
  | nil => rfl
  | cons c data ih => simp only [sum32a.Write, List.foldl_cons, prime32, ih]

theorem Sum32_eq_fnv1a32Spec (data : GoString) : Sum32 data = fnv1a32Spec data := by
  simp only [Sum32, fnv1a32Spec, offset32, sum32a_Write_eq_foldl]

theorem sum32a_Write_lt (data : GoString) (hash : Nat) (h : hash < 2 ^ 32) :
    sum32a.Write hash data < 2 ^ 32 := by
  induction data generalizing hash with
  | nil => simpa [sum32a.Write] using h
  | cons c data ih =>
    simp only [sum32a.Write]
    exact ih _ (Nat.mod_lt _ (by norm_num))

theorem Sum32_lt (data : GoString) : Sum32 data < 2 ^ 32 :=
  sum32a_Write_lt data offset32 (by decide)

theorem wrapInt_intBits_of_lt (x : Nat) (h : x < 2 ^ 32) :
    wrapInt intBits (x : Int) = (x : Int) := by
  unfold wrapInt intBits
  have h1 : (0 : Int) ≤ (x : Int) + 2 ^ (64 - 1) := by positivity
  have h2 : (x : Int) + 2 ^ (64 - 1) < 2 ^ 64 := by
    have : (x : Int) < 2 ^ 32 := by exact_mod_cast h
    norm_num at this ⊢
    omega
  rw [Int.emod_eq_of_lt h1 h2]
  ring

theorem index_natCast {α : Type} (xs : List α) (k : Nat) (h : k < xs.length) :
    index xs (k : Int) = some (xs.get ⟨k, h⟩) := by
  unfold index
  have h2 : (0 : Int) ≤ (k : Int) ∧ (k : Int) < (xs.length : Int) :=
    ⟨Int.natCast_nonneg k, by exact_mod_cast h⟩
  rw [if_pos h2]
  simp [List.getElem?_eq_getElem h]

theorem GetSubnetID_eq_of_ne_nil (d : Data) (requestID : GoString) (h : d.SubnetIDs ≠ [])
    (hlt : fnv1a32Spec requestID % d.SubnetIDs.length < d.SubnetIDs.length) :
    d.GetSubnetID requestID
      = some (d.SubnetIDs.get ⟨fnv1a32Spec requestID % d.SubnetIDs.length, hlt⟩) := by
  have hpos : d.SubnetIDs.length > 0 := List.length_pos.mpr h
  unfold Data.GetSubnetID
  rw [if_pos hpos]
  simp only
  rw [wrapInt_intBits_of_lt _ (Sum32_lt requestID)]
  have : Int.tmod (Sum32 requestID : Int) (d.SubnetIDs.length : Int)
      = ((Sum32 requestID % d.SubnetIDs.length : Nat) : Int) :=
    (Int.ofNat_tmod _ _).symm
  rw [this]
  have hlt2 : Sum32 requestID % d.SubnetIDs.length < d.SubnetIDs.length := Nat.mod_lt _ hpos
  rw [index_natCast _ _ hlt2]
  simp only [Sum32_eq_fnv1a32Spec]

/-! ## Placement: `GetSubnetID` -/

/-- C1: with a non-empty `SubnetIDs`, `GetSubnetID` returns
`SubnetIDs[h mod len(SubnetIDs)]` for `h` the 32-bit FNV-1a hash of the request
id's bytes; the index is in bounds, the result is an element of the list, it is
the same for every `Data` with that list, and a one-element list gives its
element. -/
theorem GetSubnetID_hash_index (d : Data) (requestID : GoString) (h : d.SubnetIDs ≠ []) :
    fnv1a32Spec requestID % d.SubnetIDs.length < d.SubnetIDs.length
      ∧ d.GetSubnetID requestID
          = d.SubnetIDs[fnv1a32Spec requestID % d.SubnetIDs.length]?
      ∧ (∃ s ∈ d.SubnetIDs, d.GetSubnetID requestID = some s)
      ∧ (∀ d2 : Data, d2.SubnetIDs = d.SubnetIDs →
          d2.GetSubnetID requestID = d.GetSubnetID requestID)
      ∧ (∀ x, d.SubnetIDs = [x] → d.GetSubnetID requestID = some x) := by
  have hpos : d.SubnetIDs.length > 0 := List.length_pos.mpr h
  have hlt : fnv1a32Spec requestID % d.SubnetIDs.length < d.SubnetIDs.length :=
    Nat.mod_lt _ hpos
  have key := GetSubnetID_eq_of_ne_nil d requestID h hlt
  refine ⟨hlt, ?_, ⟨_, List.get_mem _ _ _, key⟩, ?_, ?_⟩
  · rw [key, List.getElem?_eq_getElem hlt]
    rfl
  · intro d2 h2
    unfold Data.GetSubnetID
    rw [h2, if_pos hpos, if_pos hpos]
  · intro x hx
    rw [key]
    simp [hx]

/-- C1 at the data of `TestGetSubnetID_Deterministic`: request id
"test-request-123" over three subnets is given the second one. -/
theorem GetSubnetID_hash_index_witness :
    ({ SubnetIDs := [go "subnet-a", go "subnet-b", go "subnet-c"] } : Data).SubnetIDs ≠ []
      ∧ ({ SubnetIDs := [go "subnet-a", go "subnet-b", go "subnet-c"] } : Data).GetSubnetID
          (go "test-request-123") = some (go "subnet-b") := by
  refine ⟨by decide, ?_⟩
  obtain ⟨_, h, _⟩ := GetSubnetID_hash_index
    { SubnetIDs := [go "subnet-a", go "subnet-b", go "subnet-c"] } (go "test-request-123")
    (by decide)
  rw [h]
  decide

/-- C2: with an empty `SubnetIDs`, `GetSubnetID` returns the legacy `SubnetID`
field unchanged, whatever the request id; so the empty string when that field is
empty too. -/
theorem GetSubnetID_legacy (d : Data) (requestID : GoString) (h : d.SubnetIDs = []) :
    d.GetSubnetID requestID = some d.SubnetID
      ∧ (d.SubnetID = go "" → d.GetSubnetID requestID = some (go "")) := by
  have key : d.GetSubnetID requestID = some d.SubnetID := by
    simp [Data.GetSubnetID, h]
  exact ⟨key, fun he => by rw [key, he]⟩

/-- C2 at the data of `TestGetSubnetID_BackwardCompatibility`. -/
theorem GetSubnetID_legacy_witness :
    ({ SubnetID := go "subnet-legacy" } : Data).SubnetIDs = []
      ∧ ({ SubnetID := go "subnet-legacy" } : Data).GetSubnetID (go "any-request-id")
          = some (go "subnet-legacy") :=
  ⟨rfl, (GetSubnetID_legacy { SubnetID := go "subnet-legacy" } (go "any-request-id") rfl).1⟩

/-- C3 as stated fails: with 5 subnets and the 50 request ids
`request-0 .. request-49`, `subnet-1` is selected 7 times, which differs from
10 by 3, more than the tolerance 2. -/
theorem distribution_tolerance_two_fails :
    distribution 5 50 (go "subnet-1") = 7
      ∧ ¬ ∀ N j : Nat, 1 ≤ N → N ≤ 6 → j < N →
          testDiff (distribution N (10 * N) (go "subnet-" ++ fmtD j)) ((10 * N / N : Nat) : Int)
            ≤ 2 := by
  refine ⟨by decide, fun hall => ?_⟩
  have h := hall 5 1 (by decide) (by decide) (by decide)
  revert h
  decide

/-- C3, amended: for every `N` from 1 to 6, with `SubnetIDs = [subnet-0, ...,
subnet-(N-1)]` and the request ids `request-0 .. request-(10N-1)`, every subnet
is selected at least once and its count differs from 10 by at most 5; for
`N ≤ 4` it differs by at most the tolerance 2. -/
theorem distribution_within_five (N j : Nat) (h1 : 1 ≤ N) (h6 : N ≤ 6) (hj : j < N) :
    1 ≤ distribution N (10 * N) (go "subnet-" ++ fmtD j)
      ∧ testDiff (distribution N (10 * N) (go "subnet-" ++ fmtD j)) ((10 * N / N : Nat) : Int)
          ≤ 5
      ∧ (N ≤ 4 →
          testDiff (distribution N (10 * N) (go "subnet-" ++ fmtD j))
            ((10 * N / N : Nat) : Int) ≤ 2) := by
  interval_cases N <;> interval_cases j <;> decide

/-- C3, amended, at `N = 6` and the first subnet, which is selected 15 times. -/
theorem distribution_within_five_witness :
    distribution 6 60 (go "subnet-0") = 15
      ∧ testDiff (distribution 6 (10 * 6) (go "subnet-" ++ fmtD 0))
          ((10 * 6 / 6 : Nat) : Int) ≤ 5 :=
  ⟨by decide, (distribution_within_five 6 0 (by decide) (by decide) (by decide)).2.1⟩

/-! ## Image resolution: `LookupAMI` -/

theorem scanImages_first_match (region arch : GoString) (before : List CloudImage)
    (img : CloudImage) (after : List CloudImage)
    (hbefore : ∀ x ∈ before, ¬ (x.Region = region ∧ x.Arch = arch))
    (himg : img.Region = region ∧ img.Arch = arch) :
    scanImages region arch (before ++ img :: after) = .ok img.ID := by
  induction before with
  | nil => simp [scanImages, himg]
  | cons x before ih =>
    have hx : ¬ (x.Region = region ∧ x.Arch = arch) := hbefore x (List.mem_cons_self _ _)
    have hrest : ∀ y ∈ before, ¬ (y.Region = region ∧ y.Arch = arch) :=
      fun y hy => hbefore y (List.mem_cons_of_mem _ hy)
    simp only [List.cons_append, scanImages, if_neg hx]
    exact ih hrest

theorem scanImages_no_match (region arch : GoString) (images : List CloudImage)
    (hnone : ∀ x ∈ images, ¬ (x.Region = region ∧ x.Arch = arch)) :
    scanImages region arch images
      = .error (.errorf (go "AMI not found for region " ++ region ++ go " and arch " ++ arch)) := by
  induction images with
  | nil => rfl
  | cons x images ih =>
    have hx : ¬ (x.Region = region ∧ x.Arch = arch) := hnone x (List.mem_cons_self _ _)
    simp only [scanImages, if_neg hx]
    exact ih (fun y hy => hnone y (List.mem_cons_of_mem _ hy))

theorem scanImages_error_imp_no_match (region arch : GoString) (images : List CloudImage)
    (e : Error) (herr : scanImages region arch images = .error e) :
    ∀ x ∈ images, ¬ (x.Region = region ∧ x.Arch = arch) := by
  induction images with
  | nil => intro x hx; cases hx
  | cons y images ih =>
    by_cases hy : y.Region = region ∧ y.Arch = arch
    · simp [scanImages, hy] at herr
    · simp only [scanImages, if_neg hy] at herr
      intro x hx
      rcases List.mem_cons.mp hx with rfl | hmem
      · exact hy
      · exact ih herr x hmem

theorem LookupAMI_of_fetched (w : World) (region arch version : GoString) (resp : Response)
    (images : List CloudImage)
    (hreq : w.NewRequestWithContext (manifestURL (normalizeVersion version)) = .ok ())
    (hdo : w.Do (manifestURL (normalizeVersion version)) = .ok resp)
    (hstatus : resp.StatusCode = 200)
    (hdecode : w.Decode resp.Body = .ok images) :
    LookupAMI w region arch version
      = (scanImages region arch images, [.httpGet (manifestURL (normalizeVersion version))]) := by
  simp [LookupAMI, hreq, hdo, hstatus, hdecode]

/-- C4: when the manifest is fetched and decoded, `LookupAMI` returns the id of
the first entry, in document order, whose region and arch both equal the
requested ones, and it fails, with the not-found error, exactly when no entry
matches. -/
theorem LookupAMI_first_match (w : World) (region arch version : GoString) (resp : Response)
    (images : List CloudImage)
    (hreq : w.NewRequestWithContext (manifestURL (normalizeVersion version)) = .ok ())
    (hdo : w.Do (manifestURL (normalizeVersion version)) = .ok resp)
    (hstatus : resp.StatusCode = 200)
    (hdecode : w.Decode resp.Body = .ok images) :
    (∀ (before : List CloudImage) (img : CloudImage) (after : List CloudImage),
        images = before ++ img :: after →
        (∀ x ∈ before, ¬ (x.Region = region ∧ x.Arch = arch)) →
        img.Region = region ∧ img.Arch = arch →
        (LookupAMI w region arch version).1 = .ok img.ID)
      ∧ ((∃ e, (LookupAMI w region arch version).1 = .error e)
          ↔ ∀ x ∈ images, ¬ (x.Region = region ∧ x.Arch = arch))
      ∧ (∀ e, (LookupAMI w region arch version).1 = .error e →
          e = .errorf (go "AMI not found for region " ++ region ++ go " and arch " ++ arch)) := by
  rw [LookupAMI_of_fetched w region arch version resp images hreq hdo hstatus hdecode]
  refine ⟨?_, ⟨?_, ?_⟩, ?_⟩
  · intro before img after himages hbefore himg
    rw [himages]
    exact scanImages_first_match region arch before img after hbefore himg
  · rintro ⟨e, he⟩
    exact scanImages_error_imp_no_match region arch images e he
  · intro hnone
    exact ⟨_, scanImages_no_match region arch images hnone⟩
  · intro e he
    have hnone := scanImages_error_imp_no_match region arch images e he
    rw [scanImages_no_match region arch images hnone] at he
    cases he
    rfl

/-- C4 at the image resolution example: over the manifest
`[{ami-1, us-east-1, amd64}]` the lookup for (us-east-1, amd64) returns `ami-1`
and the lookup for (us-west-2, amd64) fails. -/
theorem LookupAMI_first_match_witness :
    (LookupAMI (exampleWorld (go "running")) (go "us-east-1") (go "amd64") (go "1.2.3")).1
        = .ok (go "ami-1")
      ∧ ∃ e, (LookupAMI (exampleWorld (go "running")) (go "us-west-2") (go "amd64")
          (go "1.2.3")).1 = .error e :=
  ⟨(LookupAMI_first_match (exampleWorld (go "running")) (go "us-east-1") (go "amd64")
      (go "1.2.3") { StatusCode := 200, Status := go "200 OK", Body := go "" } exampleManifest
      rfl rfl rfl rfl).1 [] { ID := go "ami-1", Region := go "us-east-1", Arch := go "amd64" }
      [] rfl (by simp) ⟨rfl, rfl⟩,
    (LookupAMI_first_match (exampleWorld (go "running")) (go "us-west-2") (go "amd64")
      (go "1.2.3") { StatusCode := 200, Status := go "200 OK", Body := go "" } exampleManifest
      rfl rfl rfl rfl).2.1.mpr (by decide)⟩

theorem HasPrefix_v_append (s : GoString) : HasPrefix (go "v" ++ s) (go "v") = true := by
  simp [HasPrefix, go_v]

theorem normalizeVersion_of_not_prefixed (s : GoString) (h : HasPrefix s (go "v") = false) :
    normalizeVersion s = go "v" ++ s := by
  simp [normalizeVersion, h]

theorem normalizeVersion_v_append (s : GoString) :
    normalizeVersion (go "v" ++ s) = go "v" ++ s := by
  simp [normalizeVersion, HasPrefix_v_append]

theorem HasPrefix_normalizeVersion (t : GoString) :
    HasPrefix (normalizeVersion t) (go "v") = true := by
  by_cases h : HasPrefix t (go "v") = true
  · simp [normalizeVersion, h]
  · rw [Bool.not_eq_true] at h
    rw [normalizeVersion_of_not_prefixed t h]
    exact HasPrefix_v_append t

theorem LookupAMI_calls (w : World) (region arch version : GoString) :
    (LookupAMI w region arch version).2 = []
      ∨ (LookupAMI w region arch version).2
          = [.httpGet (manifestURL (normalizeVersion version))] := by
  unfold LookupAMI
  simp only
  split
  · exact Or.inl rfl
  · split
    · exact Or.inr rfl
    · split
      · exact Or.inr rfl
      · split <;> exact Or.inr rfl

/-- C5: for a version `s` that does not start with "v", `LookupAMI` called with
`s` and with "v" + `s` builds the same manifest URL (and so behaves the same);
every request it makes is for the URL of the normalised version; the
normalisation is idempotent and its result always starts with "v". -/
theorem LookupAMI_version_normalized (s : GoString) (h : HasPrefix s (go "v") = false) :
    manifestURL (normalizeVersion s) = manifestURL (normalizeVersion (go "v" ++ s))
      ∧ (∀ (w : World) (region arch : GoString),
          LookupAMI w region arch s = LookupAMI w region arch (go "v" ++ s))
      ∧ (∀ (w : World) (region arch t url : GoString),
          Call.httpGet url ∈ (LookupAMI w region arch t).2 →
            url = go "https://github.com/siderolabs/talos/releases/download/"
              ++ normalizeVersion t ++ go "/cloud-images.json")
      ∧ (∀ t : GoString, normalizeVersion (normalizeVersion t) = normalizeVersion t)
      ∧ (∀ t : GoString, HasPrefix (normalizeVersion t) (go "v") = true) := by
  have hn : normalizeVersion s = normalizeVersion (go "v" ++ s) := by
    rw [normalizeVersion_of_not_prefixed s h, normalizeVersion_v_append]
  refine ⟨by rw [hn], ?_, ?_, ?_, HasPrefix_normalizeVersion⟩
  · intro w region arch
    unfold LookupAMI
    rw [hn]
  · intro w region arch t url hmem
    rcases LookupAMI_calls w region arch t with hc | hc
    · rw [hc] at hmem
      cases hmem
    · rw [hc] at hmem
      simp only [List.mem_singleton, Call.httpGet.injEq] at hmem
      rw [hmem]
      rfl
  · intro t
    have ht := HasPrefix_normalizeVersion t
    generalize normalizeVersion t = u at ht
    simp [normalizeVersion, ht]

/-- C5 at the version normalisation example: "1.2.3" and "v1.2.3" give the
same manifest URL. -/
theorem LookupAMI_version_normalized_witness :
    HasPrefix (go "1.2.3") (go "v") = false
      ∧ manifestURL (normalizeVersion (go "1.2.3"))
          = manifestURL (normalizeVersion (go "v" ++ go "1.2.3"))
      ∧ manifestURL (normalizeVersion (go "1.2.3"))
          = go "https://github.com/siderolabs/talos/releases/download/v1.2.3/cloud-images.json" :=
  ⟨by decide, (LookupAMI_version_normalized (go "1.2.3") (by decide)).1, by decide⟩

/-! ## The provisioning steps -/

/-- C6: when the provider data parses, `GetSubnetID` of the request id is a
non-empty subnet and `security_group_ids` is empty, the step "runInstance"
returns an error, makes no `RunInstances` call (no call at all) and leaves the
spec unchanged. -/
theorem runInstance_requires_security_groups (w : World) (pctx : Context) (data : Data)
    (subnetID : GoString)
    (hdata : pctx.ProviderData = .ok data)
    (hsubnet : data.GetSubnetID pctx.RequestID = some subnetID)
    (hnonempty : subnetID ≠ go "")
    (hgroups : data.SecurityGroupIDs = []) :
    (runInstance w pctx).outcome
        = .err (.errorf (go
            "security_group_ids must be specified when subnet_id or subnet_ids is provided"))
      ∧ (runInstance w pctx).calls = []
      ∧ (∀ c ∈ (runInstance w pctx).calls, c.isRunInstances = false)
      ∧ (runInstance w pctx).State = pctx.State := by
  have hcond : subnetID ≠ go "" ∧ data.SecurityGroupIDs.length = 0 :=
    ⟨hnonempty, by rw [hgroups]; rfl⟩
  have hrun : runInstance w pctx
      = ⟨.err (.errorf (go
          "security_group_ids must be specified when subnet_id or subnet_ids is provided")),
          pctx.State, []⟩ := by
    unfold runInstance
    rw [hdata]
    simp only [hsubnet]
    rw [if_pos hcond]
  rw [hrun]
  exact ⟨rfl, rfl, fun c hc => (by cases hc), rfl⟩

/-- C6 at a legacy subnet without security groups: the step fails although the
EC2 client of the world would have created an instance. -/
theorem runInstance_requires_security_groups_witness :
    (runInstance (exampleWorld (go "running"))
        (exampleContext {} { SubnetID := go "subnet-legacy" } (go "request-1")
          (go "1.2.3"))).outcome
        = .err (.errorf (go
            "security_group_ids must be specified when subnet_id or subnet_ids is provided"))
      ∧ (runInstance (exampleWorld (go "running"))
        (exampleContext {} { SubnetID := go "subnet-legacy" } (go "request-1")
          (go "1.2.3"))).calls = [] :=
  have h := runInstance_requires_security_groups (exampleWorld (go "running"))
    (exampleContext {} { SubnetID := go "subnet-legacy" } (go "request-1") (go "1.2.3"))
    { SubnetID := go "subnet-legacy" } (go "subnet-legacy") rfl rfl (by decide) rfl
  ⟨h.1, h.2.1⟩

/-- C7: when the describe call succeeds and reports the instance in state `s`,
the step "waitRunning" returns nil exactly when `s` is "running", returns an
error when `s` is "terminated" or "shutting-down", and for every other state
(so for "pending", "stopping" and "stopped") returns the retry interval of
10 seconds; the spec is unchanged in every case. -/
theorem waitRunning_by_state (w : World) (pctx : Context) (reservation : Reservation)
    (reservations : List Reservation) (inst : Instance) (instances : List Instance)
    (s : GoString)
    (hdescribe : w.DescribeInstances [pctx.State.InstanceId] = .ok (reservation :: reservations))
    (hinstances : reservation.Instances = inst :: instances)
    (hstate : inst.State = some { Name := s }) :
    ((waitRunning w pctx).outcome = .nil ↔ s = go "running")
      ∧ (s = go "terminated" ∨ s = go "shutting-down" →
          (waitRunning w pctx).outcome
            = .err (.errorf (go "instance " ++ pctx.State.InstanceId ++ go " is in state " ++ s)))
      ∧ (s ≠ go "running" → s ≠ go "terminated" → s ≠ go "shutting-down" →
          (waitRunning w pctx).outcome = .err (.retryInterval 10000000000))
      ∧ (s = go "pending" ∨ s = go "stopping" ∨ s = go "stopped" →
          (waitRunning w pctx).outcome = .err (.retryInterval 10000000000))
      ∧ (waitRunning w pctx).State = pctx.State := by
  have hrun : waitRunning w pctx
      = if s = go "running" then
          ⟨.nil, pctx.State, [.describeInstances [pctx.State.InstanceId]]⟩
        else if s = go "terminated" ∨ s = go "shutting-down" then
          ⟨.err (.errorf (go "instance " ++ pctx.State.InstanceId ++ go " is in state " ++ s)),
            pctx.State, [.describeInstances [pctx.State.InstanceId]]⟩
        else
          ⟨.err (.retryInterval (Second * 10)), pctx.State,
            [.describeInstances [pctx.State.InstanceId]]⟩ := by
    unfold waitRunning
    simp only [hdescribe, hinstances, hstate]
  have hother : s ≠ go "running" → s ≠ go "terminated" → s ≠ go "shutting-down" →
      (waitRunning w pctx).outcome = .err (.retryInterval 10000000000) := by
    intro h1 h2 h3
    rw [hrun, if_neg h1, if_neg (by rintro (h | h); exact h2 h; exact h3 h)]
    rfl
  refine ⟨⟨?_, ?_⟩, ?_, hother, ?_, ?_⟩
  · intro hnil
    by_contra hne
    rw [hrun, if_neg hne] at hnil
    split at hnil <;> cases hnil
  · intro hs
    rw [hrun, if_pos hs]
  · intro hs
    have hne : s ≠ go "running" := by
      rcases hs with h | h <;> rw [h] <;> decide
    rw [hrun, if_neg hne, if_pos hs]
  · intro hs
    rcases hs with h | h | h <;> subst h <;>
      exact hother (by decide) (by decide) (by decide)
  · rw [hrun]
    split
    · rfl
    · split <;> rfl

/-- C7 at the polling example: an instance reported "pending" gives the retry
interval of 10 seconds and leaves the spec as it was. -/
theorem waitRunning_by_state_witness :
    (waitRunning (exampleWorld (go "pending"))
        (exampleContext { InstanceId := go "i-1" } {} (go "request-1") (go "1.2.3"))).outcome
        = .err (.retryInterval 10000000000)
      ∧ (waitRunning (exampleWorld (go "pending"))
        (exampleContext { InstanceId := go "i-1" } {} (go "request-1") (go "1.2.3"))).State
        = { InstanceId := go "i-1" } :=
  have h := waitRunning_by_state (exampleWorld (go "pending"))
    (exampleContext { InstanceId := go "i-1" } {} (go "request-1") (go "1.2.3"))
    { Instances := [{ InstanceId := some (go "i-1"), State := some { Name := go "pending" } }] }
    [] { InstanceId := some (go "i-1"), State := some { Name := go "pending" } } []
    (go "pending") rfl rfl rfl
  ⟨h.2.2.2.1 (Or.inl rfl), h.2.2.2.2⟩

/-- C8: `Deprovision` with an empty instance id returns nil and makes no
terminate call; with a non-empty instance id it makes exactly one terminate
call, for the list holding just that id, returns nil when the call succeeds and
returns the call's error unchanged when it fails. -/
theorem Deprovision_terminates_once (w : World) (machine : MachineSpec) :
    (machine.InstanceId = go "" →
        (Deprovision w machine).1 = .nil
          ∧ (Deprovision w machine).2.filter Call.isTerminate = [])
      ∧ (machine.InstanceId ≠ go "" →
          (Deprovision w machine).2.filter Call.isTerminate
              = [.terminateInstances [machine.InstanceId]]
            ∧ (w.TerminateInstances [machine.InstanceId] = .ok () →
                (Deprovision w machine).1 = .nil)
            ∧ (∀ e, w.TerminateInstances [machine.InstanceId] = .error e →
                (Deprovision w machine).1 = .err (.external e))) := by
  constructor
  · intro hempty
    simp [Deprovision, hempty, Call.isTerminate]
  · intro hne
    unfold Deprovision
    simp only [if_neg hne]
    cases hcall : w.TerminateInstances [machine.InstanceId] with
    | error e => simp [Call.isTerminate]
    | ok u => simp [Call.isTerminate]

/-- C8 at three runs: an empty instance id (no terminate call), instance `i-1`
with a terminate call that succeeds, and instance `i-1` with a terminate call
that fails with "denied". -/
theorem Deprovision_terminates_once_witness :
    (Deprovision (exampleWorld (go "running")) {}).1 = .nil
      ∧ (Deprovision (exampleWorld (go "running")) {}).2.filter Call.isTerminate = []
      ∧ (Deprovision (exampleWorld (go "running")) { InstanceId := go "i-1" }).2.filter
          Call.isTerminate = [.terminateInstances [go "i-1"]]
      ∧ (Deprovision (exampleWorld (go "running")) { InstanceId := go "i-1" }).1 = .nil
      ∧ (Deprovision (failingTerminateWorld (go "denied")) { InstanceId := go "i-1" }).1
          = .err (.external (go "denied")) :=
  have h0 := (Deprovision_terminates_once (exampleWorld (go "running")) {}).1 rfl
  have h1 := (Deprovision_terminates_once (exampleWorld (go "running"))
    { InstanceId := go "i-1" }).2 (by decide)
  have h2 := (Deprovision_terminates_once (failingTerminateWorld (go "denied"))
    { InstanceId := go "i-1" }).2 (by decide)
  ⟨h0.1, h0.2, h1.1, h1.2.1 rfl, h2.2.2 (go "denied") rfl⟩

theorem filter_isHttpGet_LookupAMI (w : World) (region arch version : GoString) :
    (LookupAMI w region arch version).2.filter Call.isHttpGet
      = (LookupAMI w region arch version).2 := by
  rcases LookupAMI_calls w region arch version with h | h <;> rw [h] <;> rfl

/-- C9: when the provider data parses, the step "lookupAMI" with an empty
Talos version fails without any call and without changing the spec; otherwise
it calls `LookupAMI` with the provisioner's region, the configured arch
("amd64" when empty) and the requested version, and when that returns `id` it
returns nil with the spec's image id set to `id`, the region set to the
provisioner's region and the instance id unchanged, while when it fails the
step returns that error with the spec unchanged. -/
theorem lookupAMI_step (w : World) (p : Provisioner) (pctx : Context) (data : Data)
    (hdata : pctx.ProviderData = .ok data) :
    (pctx.TalosVersion = go "" →
        (lookupAMI w p pctx).outcome
            = .err (.errorf (go "talos version is not set in machine request"))
          ∧ (lookupAMI w p pctx).calls = []
          ∧ (lookupAMI w p pctx).State = pctx.State)
      ∧ (pctx.TalosVersion ≠ go "" →
          (∀ id, (LookupAMI w p.region (if data.Arch = go "" then go "amd64" else data.Arch)
                pctx.TalosVersion).1 = .ok id →
              (lookupAMI w p pctx).outcome = .nil
                ∧ (lookupAMI w p pctx).State
                  = { AmiId := id, Region := p.region, InstanceId := pctx.State.InstanceId })
            ∧ (∀ e, (LookupAMI w p.region (if data.Arch = go "" then go "amd64" else data.Arch)
                pctx.TalosVersion).1 = .error e →
              (lookupAMI w p pctx).outcome = .err e
                ∧ (lookupAMI w p pctx).State = pctx.State)
            ∧ (lookupAMI w p pctx).calls.filter Call.isHttpGet
                = (LookupAMI w p.region (if data.Arch = go "" then go "amd64" else data.Arch)
                    pctx.TalosVersion).2) := by
  constructor
  · intro hempty
    simp [lookupAMI, hdata, hempty]
  · intro hne
    have hfilter := filter_isHttpGet_LookupAMI w p.region
      (if data.Arch = go "" then go "amd64" else data.Arch) pctx.TalosVersion
    unfold lookupAMI
    rw [hdata]
    simp only [if_neg hne]
    rcases hres : LookupAMI w p.region (if data.Arch = go "" then go "amd64" else data.Arch)
      pctx.TalosVersion with ⟨res, calls⟩
    rw [hres] at hfilter
    cases res with
    | error e0 =>
      dsimp only at hfilter ⊢
      refine ⟨fun id hid => (by cases hid), fun e he => ?_, hfilter⟩
      cases he
      exact ⟨rfl, rfl⟩
    | ok id0 =>
      dsimp only at hfilter ⊢
      refine ⟨fun id hid => ?_, fun e he => (by cases he), ?_⟩
      · cases hid
        exact ⟨rfl, rfl⟩
      · rw [List.filter_append, hfilter]
        simp [Call.isHttpGet]

/-- C9 at three requests over the example manifest with provisioner region
us-east-1: no Talos version (failure, no call), version "1.2.3" with the arch
left empty (image `ami-1` found via the default "amd64"), and arch "arm64"
(the resolver's not-found error, spec unchanged). -/
theorem lookupAMI_step_witness :
    (lookupAMI (exampleWorld (go "running")) { region := go "us-east-1" }
        (exampleContext {} {} (go "request-1") (go ""))).calls = []
      ∧ (lookupAMI (exampleWorld (go "running")) { region := go "us-east-1" }
        (exampleContext { InstanceId := go "i-0" } {} (go "request-1") (go "1.2.3"))).State
          = { AmiId := go "ami-1", Region := go "us-east-1", InstanceId := go "i-0" }
      ∧ (lookupAMI (exampleWorld (go "running")) { region := go "us-east-1" }
        (exampleContext { InstanceId := go "i-0" } { Arch := go "arm64" } (go "request-1")
          (go "1.2.3"))).State = { InstanceId := go "i-0" } :=
  ⟨((lookupAMI_step (exampleWorld (go "running")) { region := go "us-east-1" }
      (exampleContext {} {} (go "request-1") (go "")) {} rfl).1 rfl).2.1,
    (((lookupAMI_step (exampleWorld (go "running")) { region := go "us-east-1" }
      (exampleContext { InstanceId := go "i-0" } {} (go "request-1") (go "1.2.3")) {} rfl).2
        (by decide)).1 (go "ami-1") rfl).2,
    (((lookupAMI_step (exampleWorld (go "running")) { region := go "us-east-1" }
      (exampleContext { InstanceId := go "i-0" } { Arch := go "arm64" } (go "request-1")
        (go "1.2.3")) { Arch := go "arm64" } rfl).2 (by decide)).2.1
          (.errorf (go "AMI not found for region us-east-1 and arch arm64")) rfl).2⟩

/-! ## The root-volume size of the create-instance request -/

theorem wrapInt_32_of_range (v : Int) (hlo : -2147483648 ≤ v) (hhi : v ≤ 2147483647) :
    wrapInt 32 v = v := by
  unfold wrapInt
  have h1 : (0 : Int) ≤ v + 2 ^ (32 - 1) := by norm_num; omega
  have h2 : v + 2 ^ (32 - 1) < 2 ^ 32 := by norm_num; omega
  rw [Int.emod_eq_of_lt h1 h2]
  ring

theorem buildRunInstancesInput_volume_in_range (data : Data) (pctx : Context)
    (subnetID : GoString) :
    ((buildRunInstancesInput data pctx subnetID).BlockDeviceMappings ≠ [] ↔ data.VolumeSize > 0)
      ∧ (0 < data.VolumeSize → data.VolumeSize ≤ 2147483647 →
          (buildRunInstancesInput data pctx subnetID).BlockDeviceMappings
            = [{ DeviceName := some (go "/dev/xvda")
                 Ebs := some { VolumeSize := some data.VolumeSize } }]) := by
  by_cases hv : data.VolumeSize > 0
  · have hmap : (buildRunInstancesInput data pctx subnetID).BlockDeviceMappings
        = [{ DeviceName := some (go "/dev/xvda")
             Ebs := some { VolumeSize := some (wrapInt 32 data.VolumeSize) } }] := by
      unfold buildRunInstancesInput
      simp only [if_pos hv]
    refine ⟨⟨fun _ => hv, fun _ => by rw [hmap]; simp⟩, fun hpos hle => ?_⟩
    rw [hmap, wrapInt_32_of_range data.VolumeSize (by omega) hle]
  · have hmap : (buildRunInstancesInput data pctx subnetID).BlockDeviceMappings = [] := by
      unfold buildRunInstancesInput
      simp only [if_neg hv]
      split <;> split <;> rfl
    exact ⟨⟨fun hne => absurd hmap hne, fun h => absurd h hv⟩, fun hpos => absurd hpos hv⟩

theorem runInstance_call_input (w : World) (pctx : Context) (data : Data)
    (input : RunInstancesInput)
    (hdata : pctx.ProviderData = .ok data)
    (hcall : Call.runInstances input ∈ (runInstance w pctx).calls) :
    ∃ subnetID, data.GetSubnetID pctx.RequestID = some subnetID
      ∧ input = buildRunInstancesInput data pctx subnetID := by
  unfold runInstance at hcall
  rw [hdata] at hcall
  cases hsub : data.GetSubnetID pctx.RequestID with
  | none => simp [hsub] at hcall
  | some subnetID =>
    refine ⟨subnetID, rfl, ?_⟩
    simp only [hsub] at hcall
    split at hcall
    · simp at hcall
    · split at hcall
      · split at hcall <;> simpa using hcall
      · split at hcall <;> simpa using hcall
      · split at hcall
        · split at hcall <;> simpa using hcall
        · split at hcall <;> simpa using hcall

/-- C10, amended: every `RunInstances` request the step "runInstance" sends
carries a root-volume size override exactly when `volume_size` is positive, and
for a positive `volume_size` up to 2^31 - 1 the override is the single mapping
of /dev/xvda whose size is `volume_size` itself. -/
theorem runInstance_volume_size_in_range (w : World) (pctx : Context) (data : Data)
    (input : RunInstancesInput)
    (hdata : pctx.ProviderData = .ok data)
    (hcall : Call.runInstances input ∈ (runInstance w pctx).calls) :
    (input.BlockDeviceMappings ≠ [] ↔ data.VolumeSize > 0)
      ∧ (0 < data.VolumeSize → data.VolumeSize ≤ 2147483647 →
          input.BlockDeviceMappings
            = [{ DeviceName := some (go "/dev/xvda")
                 Ebs := some { VolumeSize := some data.VolumeSize } }]) := by
  obtain ⟨subnetID, _, hinput⟩ := runInstance_call_input w pctx data input hdata hcall
  rw [hinput]
  exact buildRunInstancesInput_volume_in_range data pctx subnetID

/-- C10, amended, at `volume_size = 100`: the step sends a request, and its
root-volume size is 100. -/
theorem runInstance_volume_size_in_range_witness :
    (Call.runInstances
        (buildRunInstancesInput { VolumeSize := 100 }
          (exampleContext { AmiId := go "ami-1" } { VolumeSize := 100 } (go "request-1")
            (go "1.2.3")) (go ""))
        ∈ (runInstance (exampleWorld (go "running"))
            (exampleContext { AmiId := go "ami-1" } { VolumeSize := 100 }
              (go "request-1") (go "1.2.3"))).calls)
      ∧ (buildRunInstancesInput { VolumeSize := 100 }
          (exampleContext { AmiId := go "ami-1" } { VolumeSize := 100 } (go "request-1")
            (go "1.2.3")) (go "")).BlockDeviceMappings
        = [{ DeviceName := some (go "/dev/xvda"), Ebs := some { VolumeSize := some 100 } }] :=
  ⟨by decide,
    (runInstance_volume_size_in_range (exampleWorld (go "running"))
      (exampleContext { AmiId := go "ami-1" } { VolumeSize := 100 } (go "request-1")
        (go "1.2.3")) { VolumeSize := 100 } _ rfl (by decide)).2 (by decide) (by decide)⟩

/-- C10 as stated fails above 2^31 - 1: with `volume_size = 2147483648` the
step "runInstance" sends a `RunInstances` request whose root-volume size is
-2147483648, and with `volume_size = 4294967304` (2^32 + 8) one whose size is 8;
neither is equal to the configured `volume_size`. -/
theorem runInstance_volume_size_wraps :
    (Call.runInstances
        (buildRunInstancesInput { VolumeSize := 2147483648 }
          (exampleContext { AmiId := go "ami-1" } { VolumeSize := 2147483648 } (go "request-1")
            (go "1.2.3")) (go ""))
        ∈ (runInstance (exampleWorld (go "running"))
            (exampleContext { AmiId := go "ami-1" } { VolumeSize := 2147483648 }
              (go "request-1") (go "1.2.3"))).calls)
      ∧ (buildRunInstancesInput { VolumeSize := 2147483648 }
          (exampleContext { AmiId := go "ami-1" } { VolumeSize := 2147483648 } (go "request-1")
            (go "1.2.3")) (go "")).BlockDeviceMappings
        = [{ DeviceName := some (go "/dev/xvda")
             Ebs := some { VolumeSize := some (-2147483648) } }]
      ∧ (Call.runInstances
        (buildRunInstancesInput { VolumeSize := 4294967304 }
          (exampleContext { AmiId := go "ami-1" } { VolumeSize := 4294967304 } (go "request-1")
            (go "1.2.3")) (go ""))
        ∈ (runInstance (exampleWorld (go "running"))
            (exampleContext { AmiId := go "ami-1" } { VolumeSize := 4294967304 }
              (go "request-1") (go "1.2.3"))).calls)
      ∧ (buildRunInstancesInput { VolumeSize := 4294967304 }
          (exampleContext { AmiId := go "ami-1" } { VolumeSize := 4294967304 } (go "request-1")
            (go "1.2.3")) (go "")).BlockDeviceMappings
        = [{ DeviceName := some (go "/dev/xvda"), Ebs := some { VolumeSize := some 8 } }] := by
  refine ⟨?_, ?_, ?_, ?_⟩ <;> decide

end provider
